import Mathlib

/-!
Verification of the AI interview frontend (Next.js client) against its
natural-language specification.  The definitions below are shallow
embeddings of the TypeScript source:

* `src/frontend/app/interview/page.tsx` — the MCQ test engine
  (timer, answer map, auto/manual submission) and the chat interview
  page (question generation fallback, complete-interview flow);
* `src/frontend/services/api.ts` — request payload construction;
* the interview configuration page (validation of question count and
  time limit);
* the ATS matches page (matched/unmatched partition) together with a
  spec-modelled backend upsert for match records.

JavaScript numbers that hold (possibly negative) integers are embedded
as `Int`; non-negative counts as `Nat`.  Network calls are embedded as
an explicit effect list (`Call`), with an `Oracle` telling which calls
succeed, mirroring the try/catch structure of the source.
-/

/-- Decimal rendering of a natural number, the embedding of the
JavaScript `Number.prototype.toString()` on non-negative integers. -/
def toDecString (n : Nat) : String :=
  if _h : n < 10 then String.mk [Nat.digitChar n]
  else toDecString (n / 10) ++ String.mk [Nat.digitChar (n % 10)]
decreasing_by exact Nat.div_lt_self (by omega) (by omega)

/-- Embedding of the JavaScript `s.padStart(2, "0")`: left-pad with
the character 0 until the length is at least 2. -/
def padStart2 (s : String) : String :=
  String.mk (List.replicate (2 - s.length) '0') ++ s

/-- `formatTime` from `src/frontend/app/interview/page.tsx` lines
175-179: minutes and seconds, each padded to two digits, joined by a
colon. -/
def formatTime (seconds : Nat) : String :=
  padStart2 (toDecString (seconds / 60)) ++ ":" ++ padStart2 (toDecString (seconds % 60))

/-- Specification-side restatement of the display format: quotient and
remainder by 60, rendered in decimal and zero-padded to at least two
digits, separated by a colon.  Used only to compare with `formatTime`. -/
def formatTimeSpec (s : Nat) : String :=
  (if s / 60 < 10 then "0" ++ toDecString (s / 60) else toDecString (s / 60))
    ++ ":" ++
  (if s % 60 < 10 then "0" ++ toDecString (s % 60) else toDecString (s % 60))

/-- Initial `timeRemaining` state (page lines 39-41): the parsed `time`
URL parameter when present, otherwise 1800 seconds (30 minutes). -/
def initTimeRemaining (timeLimitParam : Option Int) : Int :=
  timeLimitParam.getD 1800

/-- The `setTimeRemaining` callback of the one-second interval (page
lines 60-66): values at most 1 are clamped to 0, otherwise decrement. -/
def tickValue (prev : Int) : Int :=
  if prev ≤ 1 then 0 else prev - 1

/-- Network and navigation effects issued by the client. -/
inductive Call where
  | submitAnswer (interviewId : Nat) (questionId : Nat) (selectedOption : String)
  | completeInterview (interviewId : Nat)
  | generateReport (interviewId : Nat)
  | logReportError
  | navigateResults (interviewId : Nat)
  | createInterview (resume : Nat) (jobDescription : Nat)
  | generateQuestions (interviewId : Nat) (count : Int)
  | startInterview (interviewId : Nat)
  | navigateInterview (interviewId : Nat) (questions : Int) (timeSeconds : Int)
  deriving DecidableEq, Repr

/-- Outcomes of the backend calls: which submissions succeed, whether
completion and report generation succeed, and the optional server
error message carried by a failure. -/
structure Oracle where
  submitOk : Nat → Bool
  completeOk : Bool
  reportOk : Bool
  errMsg : Option String

/-- The all-success oracle. -/
def okOracle : Oracle :=
  { submitOk := fun _ => true, completeOk := true, reportOk := true, errMsg := none }

/-- Client state of the MCQ test engine page: the interview id, the
question ids in order, the answers map (JavaScript `Map` entries in
insertion order), the countdown value, and the control flags. -/
structure ClientState where
  interviewId : Option Nat
  questions : List Nat
  answers : List (Nat × String)
  timeRemaining : Int
  testStarted : Bool
  testCompleted : Bool
  submitting : Bool
  error : Option String
  deriving DecidableEq, Repr

/-- JavaScript `Map.set` semantics on the answers map: an existing key
is overwritten in place, a new key is appended. -/
def mapSet (m : List (Nat × String)) (k : Nat) (v : String) : List (Nat × String) :=
  if m.any (fun p => p.1 == k) then
    m.map (fun p => if p.1 == k then (k, v) else p)
  else m ++ [(k, v)]

/-- `handleOptionSelect` (page lines 107-116): store the option for the
current question, overwriting any prior selection for it. -/
def handleOptionSelect (s : ClientState) (currentIndex : Nat) (option : String) : ClientState :=
  match s.questions[currentIndex]? with
  | none => s
  | some qid => { s with answers := mapSet s.answers qid option }

/-- The submission loop of `submitAllAnswers` (page lines 145-154):
one `submitMCQAnswer` call per answers-map entry whose question id is
among the loaded questions; a thrown (failed) call aborts the loop.
Returns the calls issued and whether the loop finished. -/
def submitLoop (o : Oracle) (iid : Nat) (qids : List Nat) :
    List (Nat × String) → List Call × Bool
  | [] => ([], true)
  | (qid, opt) :: rest =>
    if qid ∈ qids then
      if o.submitOk qid then
        let r := submitLoop o iid qids rest
        (Call.submitAnswer iid qid opt :: r.1, r.2)
      else ([Call.submitAnswer iid qid opt], false)
    else submitLoop o iid qids rest

/-- `submitAllAnswers` (page lines 137-173): guarded by the
`interviewId` presence and the `submitting` flag; submits every stored
answer, completes the interview, attempts report generation inside its
own try/catch (failure only logged), then navigates to the results
page.  Any submission or completion failure sets the error state and
clears the `submitting` flag. -/
def submitAllAnswers (o : Oracle) (s : ClientState) : ClientState × List Call :=
  match s.interviewId with
  | none => (s, [])
  | some iid =>
    if s.submitting then (s, [])
    else
      let s1 := { s with submitting := true, error := none }
      let r := submitLoop o iid s.questions s.answers
      if r.2 then
        if o.completeOk then
          (s1, r.1 ++ [Call.completeInterview iid, Call.generateReport iid]
                ++ (if o.reportOk then [] else [Call.logReportError])
                ++ [Call.navigateResults iid])
        else
          ({ s1 with
              submitting := false,
              error := some (o.errMsg.getD "Failed to submit answers") },
           r.1 ++ [Call.completeInterview iid])
      else
        ({ s1 with
            submitting := false,
            error := some (o.errMsg.getD "Failed to submit answers") }, r.1)

/-- `handleAutoSubmit` (page lines 101-105): a no-op when the test is
already completed or a submission is in flight; otherwise marks the
test completed and runs `submitAllAnswers`. -/
def handleAutoSubmit (o : Oracle) (s : ClientState) : ClientState × List Call :=
  if s.testCompleted || s.submitting then (s, [])
  else submitAllAnswers o { s with testCompleted := true }

/-- The manual submission path: the submit button (page line 349) is
disabled while `submitting || testCompleted`; `handleSubmit` (page
lines 130-135) asks for confirmation, then marks the test completed
and runs `submitAllAnswers`. -/
def manualSubmit (o : Oracle) (confirmOk : Bool) (s : ClientState) : ClientState × List Call :=
  if s.submitting || s.testCompleted then (s, [])
  else if confirmOk then submitAllAnswers o { s with testCompleted := true }
  else (s, [])

/-- One firing of the interval callback (page lines 57-71).  The
interval exists only while the test is started, not completed, and the
remaining time is positive; at a value of at most 1 the callback
triggers `handleAutoSubmit` and the displayed time becomes 0. -/
def timerTick (o : Oracle) (s : ClientState) : ClientState × List Call :=
  if s.testStarted && decide (0 < s.timeRemaining) && !s.testCompleted then
    if s.timeRemaining ≤ 1 then
      let r := handleAutoSubmit o s
      ({ r.1 with timeRemaining := tickValue s.timeRemaining }, r.2)
    else ({ s with timeRemaining := tickValue s.timeRemaining }, [])
  else (s, [])

/-- Iterate the timer `n` times, accumulating the issued calls. -/
def runTicks (o : Oracle) : Nat → ClientState → ClientState × List Call
  | 0, s => (s, [])
  | n + 1, s =>
    let r1 := timerTick o s
    let r2 := runTicks o n r1.1
    (r2.1, r1.2 ++ r2.2)

/-- A question row of the chat interview page state. -/
structure ChatQuestion where
  id : String
  question : String
  status : String
  deriving DecidableEq, Repr

/-- The welcome message shown when no AI question is available
(chat interview page). -/
def chatWelcomeMessage : String :=
  "Welcome! Let\x27s begin the interview. Please introduce yourself."

/-- The fixed fallback question bank of the chat interview page
(`initializeInterview` catch branch, lines 478-482). -/
def chatFallbackQuestions : List ChatQuestion :=
  [⟨"1", "Please introduce yourself", "current"⟩,
   ⟨"2", "What is your experience?", "pending"⟩,
   ⟨"3", "Describe a challenging project", "pending"⟩]

/-- The question count requested from the generator by the chat
interview page: `api.interviews.generateQuestions(interview.id, 5)`. -/
def requestedQuestionCount : Int := 5

/-- Result of the question-setup part of the chat page initialization. -/
structure ChatInit where
  questions : List ChatQuestion
  firstMessage : String
  error : Option String
  deriving DecidableEq, Repr

/-- Question setup inside `initializeInterview` (chat interview page,
lines 434-491): on a successful generation the returned (id, text)
pairs become the question list (first one current) and the first text
is shown; on a failed generation the fixed fallback bank is installed
and the welcome message is shown, with no error surfaced either way. -/
def initQuestionSetup (genResult : Option (List (Nat × String))) : ChatInit :=
  match genResult with
  | some qs =>
    { questions := qs.mapIdx fun i p =>
        ⟨toDecString p.1, p.2, if i = 0 then "current" else "pending"⟩,
      firstMessage := match qs with | [] => chatWelcomeMessage | p :: _ => p.2,
      error := none }
  | none =>
    { questions := chatFallbackQuestions,
      firstMessage := chatWelcomeMessage,
      error := none }

/-- `handleCompleteInterview` (chat interview page, lines 665-691):
complete the interview, attempt report generation inside a try/catch
whose failure is only logged, then navigate to the results page; a
completion failure sets the error state and stops the flow. -/
def handleCompleteInterview (o : Oracle) (interviewId : Option Nat) :
    Option String × List Call :=
  match interviewId with
  | none => (none, [])
  | some iid =>
    if o.completeOk then
      (none, [Call.completeInterview iid, Call.generateReport iid]
        ++ (if o.reportOk then [] else [Call.logReportError])
        ++ [Call.navigateResults iid])
    else (some "Failed to complete interview", [Call.completeInterview iid])

/-- Outcomes of the interview-creation flow on the configuration page:
the id returned by a successful create (`none` meaning the create call
failed), whether question generation and start succeed, and the
optional server error message. -/
structure ConfigOracle where
  createdId : Option Nat
  genOk : Bool
  startOk : Bool
  errMsg : Option String

/-- `handleSubmit` of the interview configuration page
(`src/unnamed/part_004`, lines 29-81): both ids must be present, the
question count must lie in 5..10 and the time limit in 10..120, each
violation rejected synchronously with a message and no backend call;
otherwise create, generate questions, start, and navigate to the test
engine with the time limit converted to seconds. -/
def handleSubmitConfig (o : ConfigOracle) (jobDescriptionId resumeId : Option Nat)
    (numQuestions timeLimit : Int) : Option String × List Call :=
  match jobDescriptionId, resumeId with
  | some jdId, some rId =>
    if numQuestions < 5 || numQuestions > 10 then
      (some "Number of questions must be between 5 and 10", [])
    else if timeLimit < 10 || timeLimit > 120 then
      (some "Time limit must be between 10 and 120 minutes", [])
    else
      match o.createdId with
      | none =>
        (some (o.errMsg.getD "Failed to create interview. Please try again."),
         [Call.createInterview rId jdId])
      | some iid =>
        if o.genOk then
          if o.startOk then
            (none, [Call.createInterview rId jdId,
                    Call.generateQuestions iid numQuestions,
                    Call.startInterview iid,
                    Call.navigateInterview iid numQuestions (timeLimit * 60)])
          else
            (some (o.errMsg.getD "Failed to create interview. Please try again."),
             [Call.createInterview rId jdId,
              Call.generateQuestions iid numQuestions,
              Call.startInterview iid])
        else
          (some (o.errMsg.getD "Failed to create interview. Please try again."),
           [Call.createInterview rId jdId,
            Call.generateQuestions iid numQuestions])
  | _, _ => (some "Missing job description or resume information", [])

/-- The form-data payload built by `submitMCQAnswer`
(`src/frontend/services/api.ts`, lines 105-112): exactly the question
id and the selected option letter. -/
def mcqAnswerPayload (questionId : Nat) (selectedOption : String) :
    List (String × String) :=
  [("question", toDecString questionId), ("selected_option", selectedOption)]

/-- Scoring fields of an ATS match record. -/
structure Scores where
  overall : Int
  skills : Int
  experience : Int
  education : Int
  deriving DecidableEq, Repr

/-- One persisted ATS match record, keyed by its
(job description, resume) pair. -/
structure MatchRecord where
  job : Nat
  resume : Nat
  scores : Scores
  deriving DecidableEq, Repr

/-- Whether a match record belongs to the given (job, resume) pair. -/
def keyMatch (job resume : Nat) (m : MatchRecord) : Bool :=
  m.job == job && m.resume == resume

/-- Modelled from the spec: the backend `matchResume` write semantics
are not part of the frontend sources; per the specification, a match
record for the (JobDescription, Resume) pair is created if absent,
else its scoring fields are overwritten in place, never duplicated. -/
def matchResume (job resume : Nat) (f : Scores) (store : List MatchRecord) :
    List MatchRecord :=
  if store.any (keyMatch job resume) then
    store.map fun m => if keyMatch job resume m then ⟨job, resume, f⟩ else m
  else store ++ [⟨job, resume, f⟩]

/-- The (job, resume) key of a match record. -/
def pairKey (m : MatchRecord) : Nat × Nat := (m.job, m.resume)

/-- At most one record per (job, resume) pair. -/
def pairUnique (store : List MatchRecord) : Prop := (store.map pairKey).Nodup

/-- A resume row as the ATS matches page sees it. -/
structure ResumeEntry where
  id : Nat
  status : String
  deriving DecidableEq, Repr

/-- `matchedResumeIds` (`src/unnamed/part_003`, line 177): the resume
ids present in the match list. -/
def matchedResumeIds (ms : List MatchRecord) : List Nat :=
  ms.map fun m => m.resume

/-- `unmatchedResumes` (`src/unnamed/part_003`, line 178): extracted
resumes whose id is not among the matched resume ids. -/
def unmatchedResumes (allResumes : List ResumeEntry) (ms : List MatchRecord) :
    List ResumeEntry :=
  allResumes.filter fun r =>
    !(matchedResumeIds ms).contains r.id && r.status == "extracted"

/-- A concrete in-progress test state, used to instantiate theorems
with hypotheses at a checkable input. -/
def sampleState : ClientState :=
  { interviewId := some 7, questions := [1, 2], answers := [(1, "A")],
    timeRemaining := 3, testStarted := true, testCompleted := false,
    submitting := false, error := none }

/-- Recognizer for completion calls in an effect list. -/
def isCompleteCall : Call → Bool
  | Call.completeInterview _ => true
  | _ => false

/-- Recognizer for report-generation calls in an effect list. -/
def isReportCall : Call → Bool
  | Call.generateReport _ => true
  | _ => false

/-- Recognizer for interview-creation calls in an effect list. -/
def isCreateCall : Call → Bool
  | Call.createInterview _ _ => true
  | _ => false

/-- Recognizer for the submission call of one given question. -/
def isSubmitCallFor (q : Nat) : Call → Bool
  | Call.submitAnswer _ q2 _ => q2 == q
  | _ => false

theorem toDecString_length_pos (n : Nat) : 1 ≤ (toDecString n).length := by
  induction n using Nat.strong_induction_on with
  | _ n ih =>
    rw [toDecString]
    split
    · simp [String.length]
    · rename_i h
      have := ih (n / 10) (Nat.div_lt_self (by omega) (by omega))
      rw [String.length_append]
      omega

theorem toDecString_length_of_lt {n : Nat} (h : n < 10) : (toDecString n).length = 1 := by
  rw [toDecString, dif_pos h]
  simp [String.length]

theorem toDecString_length_of_ge {n : Nat} (h : 10 ≤ n) : 2 ≤ (toDecString n).length := by
  rw [toDecString, dif_neg (by omega)]
  rw [String.length_append]
  have h1 := toDecString_length_pos (n / 10)
  have h2 : (String.mk [Nat.digitChar (n % 10)]).length = 1 := rfl
  omega

theorem padStart2_of_length_one {s : String} (h : s.length = 1) :
    padStart2 s = "0" ++ s := by
  unfold padStart2
  rw [h]
  rfl

theorem padStart2_of_length_ge {s : String} (h : 2 ≤ s.length) : padStart2 s = s := by
  unfold padStart2
  have h0 : 2 - s.length = 0 := by omega
  rw [h0]
  obtain ⟨d⟩ := s
  rfl

theorem padStart2_toDecString (n : Nat) :
    padStart2 (toDecString n)
      = if n < 10 then "0" ++ toDecString n else toDecString n := by
  by_cases h : n < 10
  · rw [if_pos h, padStart2_of_length_one (toDecString_length_of_lt h)]
  · rw [if_neg h, padStart2_of_length_ge (toDecString_length_of_ge (by omega))]

/-- Claim C10: for every non-negative integer number of seconds `s`,
`formatTime s` is the string made of `s / 60` and `s % 60`, each
rendered in decimal and zero-padded to at least two digits, separated
by a colon; in particular `formatTime 61 = "01:01"`. -/
theorem formatTime_eq_spec (s : Nat) :
    formatTime s = formatTimeSpec s ∧ formatTime 61 = "01:01" := by
  constructor
  · unfold formatTime formatTimeSpec
    rw [padStart2_toDecString, padStart2_toDecString]
  · unfold formatTime
    have h60 : (61 / 60 : Nat) = 1 := rfl
    have h1 : (61 % 60 : Nat) = 1 := rfl
    rw [h60, h1, toDecString, dif_pos (by omega)]
    decide

/-- Claim C3: the `submitMCQAnswer` payload is built from exactly the
question id and the selected option letter; its field names are
exactly `question` and `selected_option`, so it carries no score,
correctness flag, or correct-answer field. -/
theorem mcqAnswerPayload_fields (questionId : Nat) (selectedOption : String) :
    (mcqAnswerPayload questionId selectedOption).map Prod.fst
        = ["question", "selected_option"] ∧
    "score" ∉ (mcqAnswerPayload questionId selectedOption).map Prod.fst ∧
    "is_correct" ∉ (mcqAnswerPayload questionId selectedOption).map Prod.fst ∧
    "correct_answer" ∉ (mcqAnswerPayload questionId selectedOption).map Prod.fst := by
  refine ⟨rfl, ?_, ?_, ?_⟩ <;> simp [mcqAnswerPayload]

/-- Claim C4, counterexample: the requested count is 5, but the
fallback bank installed when AI question generation fails has exactly
3 questions — it is not trimmed or padded to the requested count. -/
theorem fallback_count_not_requested :
    requestedQuestionCount = 5 ∧
    (initQuestionSetup none).questions.length = 3 ∧
    ¬((initQuestionSetup none).questions.length = 5) := by
  refine ⟨rfl, rfl, by decide⟩

/-- Claim C4 as amended: when AI question generation fails, the chat
page substitutes the fixed three-question fallback bank (the request
asked the generator for 5), shows the welcome message, and surfaces no
error to the candidate. -/
theorem fallback_behavior :
    (initQuestionSetup none).questions = chatFallbackQuestions ∧
    chatFallbackQuestions.length = 3 ∧
    (initQuestionSetup none).error = none ∧
    (initQuestionSetup none).firstMessage = chatWelcomeMessage ∧
    requestedQuestionCount = 5 :=
  ⟨rfl, rfl, rfl, rfl, rfl⟩

theorem tickValue_nonneg (x : Int) : 0 ≤ tickValue x := by
  unfold tickValue
  split
  · omega
  · omega

theorem tickValue_iterate_nonneg (n : Nat) :
    ∀ x : Int, 0 ≤ x → 0 ≤ tickValue^[n] x := by
  induction n with
  | zero => intro x hx; simpa using hx
  | succ n ih =>
    intro x _hx
    rw [Function.iterate_succ_apply]
    exact ih _ (tickValue_nonneg x)

/-- Claim C9: the remaining time starts at the configured limit
(default 1800 when the parameter is absent) and never becomes
negative; every tick from a running value (at least 1) decreases it by
exactly one, and a value at most 1 is clamped to exactly 0; inside
`timerTick` the stored remaining time follows the same rule. -/
theorem timeRemaining_nonneg (p : Option Int) (hp : ∀ v ∈ p, 0 ≤ v) :
    (∀ n : Nat, 0 ≤ tickValue^[n] (initTimeRemaining p)) ∧
    (∀ prev : Int, 1 ≤ prev → tickValue prev = prev - 1) ∧
    (∀ prev : Int, prev ≤ 1 → tickValue prev = 0) ∧
    initTimeRemaining none = 1800 ∧
    (∀ (o : Oracle) (s : ClientState), s.testStarted = true →
      s.testCompleted = false → 1 ≤ s.timeRemaining →
      ((timerTick o s).1).timeRemaining = s.timeRemaining - 1) := by
  refine ⟨?_, ?_, ?_, rfl, ?_⟩
  · have h0 : 0 ≤ initTimeRemaining p := by
      cases p with
      | none => norm_num [initTimeRemaining]
      | some v => simpa [initTimeRemaining] using hp v rfl
    intro n
    exact tickValue_iterate_nonneg n _ h0
  · intro prev h
    unfold tickValue
    split <;> omega
  · intro prev h
    unfold tickValue
    rw [if_pos h]
  · intro o s hstart hcomp htime
    unfold timerTick
    have hcond : (s.testStarted && decide (0 < s.timeRemaining) && !s.testCompleted) = true := by
      rw [hstart, hcomp]
      simp only [Bool.true_and, Bool.not_false, Bool.and_true, decide_eq_true_eq]
      omega
    rw [if_pos hcond]
    by_cases hle : s.timeRemaining ≤ 1
    · rw [if_pos hle]
      show tickValue s.timeRemaining = s.timeRemaining - 1
      unfold tickValue
      rw [if_pos hle]
      omega
    · rw [if_neg hle]
      show tickValue s.timeRemaining = s.timeRemaining - 1
      unfold tickValue
      rw [if_neg hle]

/-- Witness for C9 at a concrete configured limit of 600 seconds. -/
theorem timeRemaining_nonneg_witness :
    0 ≤ tickValue^[5] (initTimeRemaining (some 600)) :=
  (timeRemaining_nonneg (some 600) (by simp)).1 5

theorem lookup_map_update (k : Nat) (v : String) :
    ∀ m : List (Nat × String), m.any (fun p => p.1 == k) = true →
      (m.map fun p => if p.1 == k then (k, v) else p).lookup k = some v := by
  intro m
  induction m with
  | nil => intro h; simp at h
  | cons p rest ih =>
    intro h
    obtain ⟨q, w⟩ := p
    rw [List.map_cons]
    by_cases hq : q = k
    · have hb : ((q, w).1 == k) = true := by simpa using hq
      rw [if_pos hb, List.lookup_cons]
      simp
    · have hb : ((q, w).1 == k) = false := by simpa using hq
      have htail : rest.any (fun p => p.1 == k) = true := by
        simpa [List.any_cons, hb] using h
      have hke : (k == q) = false := by
        simp only [beq_eq_false_iff_ne, ne_eq]
        exact fun e => hq e.symm
      rw [if_neg (by simp [hq]), List.lookup_cons, hke]
      exact ih htail

theorem lookup_append_new (k : Nat) (v : String) :
    ∀ m : List (Nat × String), m.any (fun p => p.1 == k) = false →
      (m ++ [(k, v)]).lookup k = some v := by
  intro m
  induction m with
  | nil =>
    intro _
    rw [List.nil_append, List.lookup_cons]
    simp
  | cons p rest ih =>
    intro h
    obtain ⟨q, w⟩ := p
    rw [List.any_cons, Bool.or_eq_false_iff] at h
    rw [List.cons_append, List.lookup_cons]
    have hke : (k == q) = false := by
      have hqk : (q == k) = false := h.1
      simp only [beq_eq_false_iff_ne, ne_eq] at hqk ⊢
      exact fun e => hqk e.symm
    rw [hke]
    exact ih h.2

theorem mapSet_lookup (m : List (Nat × String)) (k : Nat) (v : String) :
    (mapSet m k v).lookup k = some v := by
  unfold mapSet
  by_cases hany : m.any (fun p => p.1 == k) = true
  · rw [if_pos hany]
    exact lookup_map_update k v m hany
  · rw [if_neg hany]
    exact lookup_append_new k v m (by simpa only [Bool.not_eq_true] using hany)

theorem keys_map_update (m : List (Nat × String)) (k : Nat) (v : String) :
    ((m.map fun p => if p.1 == k then (k, v) else p).map Prod.fst) = m.map Prod.fst := by
  rw [List.map_map]
  apply List.map_congr_left
  intro p _
  by_cases hp : p.1 = k
  · simp [Function.comp, hp]
  · simp [Function.comp, hp]

theorem mapSet_keys_nodup (m : List (Nat × String)) (k : Nat) (v : String)
    (h : (m.map Prod.fst).Nodup) : ((mapSet m k v).map Prod.fst).Nodup := by
  unfold mapSet
  by_cases hany : m.any (fun p => p.1 == k) = true
  · rw [if_pos hany, keys_map_update]
    exact h
  · rw [if_neg hany, List.map_append]
    refine List.nodup_append.2 ⟨h, by simp, ?_⟩
    intro a ha hb
    have hak : a = k := by simpa using hb
    have hfalse : m.any (fun p => p.1 == k) = false := by
      simpa only [Bool.not_eq_true] using hany
    rw [List.any_eq_false] at hfalse
    obtain ⟨p, hp, he⟩ := List.mem_map.1 ha
    exact hfalse p hp (by simp [he, hak])

theorem mapSet_length_of_mem (m : List (Nat × String)) (k : Nat) (v : String)
    (h : k ∈ m.map Prod.fst) : (mapSet m k v).length = m.length := by
  unfold mapSet
  have hany : m.any (fun p => p.1 == k) = true := by
    rw [List.any_eq_true]
    obtain ⟨p, hp, he⟩ := List.mem_map.1 h
    exact ⟨p, hp, by simp [he]⟩
  rw [if_pos hany, List.length_map]

theorem submitLoop_eq (o : Oracle) (ho : ∀ q, o.submitOk q = true) (iid : Nat)
    (qids : List Nat) :
    ∀ ans : List (Nat × String), (∀ p ∈ ans, p.1 ∈ qids) →
      submitLoop o iid qids ans
        = (ans.map fun p => Call.submitAnswer iid p.1 p.2, true) := by
  intro ans
  induction ans with
  | nil => intro _; rfl
  | cons p rest ih =>
    intro hsub
    obtain ⟨q, v⟩ := p
    have hq : q ∈ qids := hsub (q, v) (List.mem_cons_self _ _)
    have hrest : ∀ p ∈ rest, p.1 ∈ qids := fun p hp => hsub p (List.mem_cons_of_mem _ hp)
    rw [submitLoop, if_pos hq]
    simp [ho q, ih hrest]

theorem submitLoop_finishes (o : Oracle) (ho : ∀ q, o.submitOk q = true) (iid : Nat)
    (qids : List Nat) :
    ∀ ans : List (Nat × String), (submitLoop o iid qids ans).2 = true := by
  intro ans
  induction ans with
  | nil => rfl
  | cons p rest ih =>
    obtain ⟨q, v⟩ := p
    rw [submitLoop]
    by_cases hq : q ∈ qids
    · rw [if_pos hq]
      simp [ho q, ih]
    · rw [if_neg hq]
      exact ih

theorem submitLoop_calls_are_submit (o : Oracle) (iid : Nat) (qids : List Nat) :
    ∀ (ans : List (Nat × String)) (c : Call),
      c ∈ (submitLoop o iid qids ans).1 → ∃ q v, c = Call.submitAnswer iid q v := by
  intro ans
  induction ans with
  | nil => intro c hc; simp [submitLoop] at hc
  | cons p rest ih =>
    obtain ⟨q, v⟩ := p
    intro c hc
    rw [submitLoop] at hc
    by_cases hq : q ∈ qids
    · rw [if_pos hq] at hc
      by_cases hok : o.submitOk q = true
      · simp only [hok, if_true] at hc
        rcases List.mem_cons.1 hc with rfl | hc2
        · exact ⟨q, v, rfl⟩
        · exact ih c hc2
      · simp only [hok] at hc
        rcases List.mem_singleton.1 (by simpa using hc) with rfl
        exact ⟨q, v, rfl⟩
    · rw [if_neg hq] at hc
      exact ih c hc

theorem submitAllAnswers_run (o : Oracle) (s : ClientState) (iid : Nat)
    (hid : s.interviewId = some iid) (hsub : s.submitting = false)
    (ho : ∀ q, o.submitOk q = true) (hc : o.completeOk = true)
    (hsubset : ∀ p ∈ s.answers, p.1 ∈ s.questions) :
    submitAllAnswers o s
      = ({ s with submitting := true, error := none },
         (s.answers.map fun p => Call.submitAnswer iid p.1 p.2)
           ++ [Call.completeInterview iid, Call.generateReport iid]
           ++ (if o.reportOk then [] else [Call.logReportError])
           ++ [Call.navigateResults iid]) := by
  unfold submitAllAnswers
  rw [hid]
  simp only [hsub, Bool.false_eq_true, if_false,
    submitLoop_eq o ho iid s.questions s.answers hsubset, hc, if_true,
    List.append_assoc, List.cons_append, List.nil_append]

theorem countP_key_eq_one :
    ∀ (ans : List (Nat × String)) (q : Nat), (ans.map Prod.fst).Nodup →
      q ∈ ans.map Prod.fst → List.countP (fun p => p.1 == q) ans = 1 := by
  intro ans
  induction ans with
  | nil => intro q _ hmem; simp at hmem
  | cons p rest ih =>
    intro q hnd hmem
    rw [List.map_cons] at hnd hmem
    have hp_not : p.1 ∉ rest.map Prod.fst := (List.nodup_cons.1 hnd).1
    have hrest : (rest.map Prod.fst).Nodup := (List.nodup_cons.1 hnd).2
    rw [List.countP_cons]
    by_cases hpq : p.1 = q
    · have hz : List.countP (fun p => p.1 == q) rest = 0 := by
        rw [List.countP_eq_zero]
        intro a ha hc
        have haq : a.1 = q := by simpa using hc
        exact hp_not (by rw [hpq, ← haq]; exact List.mem_map_of_mem Prod.fst ha)
      simp [hz, hpq]
    · have hmem2 : q ∈ rest.map Prod.fst := by
        rcases List.mem_cons.1 hmem with he | hm
        · exact absurd he.symm hpq
        · exact hm
      have hb : ((p.1 == q) : Bool) = false := by simpa using hpq
      simp [hb, ih q hrest hmem2]

/-- Claim C5: the client keeps at most one answer per question — the
answers map update is last-write-wins keyed by question id (lookup
after set gives the new value, key uniqueness is preserved, and no
entry is added when the key already exists) — and `submitAllAnswers`
issues exactly one submit-answer call per distinct answered question. -/
theorem answers_last_write_wins
    (ans : List (Nat × String)) (q : Nat) (v : String)
    (s : ClientState) (iid : Nat)
    (hid : s.interviewId = some iid) (hsub : s.submitting = false)
    (hnodup : (s.answers.map Prod.fst).Nodup)
    (hsubset : ∀ p ∈ s.answers, p.1 ∈ s.questions) :
    (mapSet ans q v).lookup q = some v ∧
    ((ans.map Prod.fst).Nodup → ((mapSet ans q v).map Prod.fst).Nodup) ∧
    (q ∈ ans.map Prod.fst → (mapSet ans q v).length = ans.length) ∧
    (submitAllAnswers okOracle s).2
      = (s.answers.map fun p => Call.submitAnswer iid p.1 p.2)
        ++ [Call.completeInterview iid, Call.generateReport iid,
            Call.navigateResults iid] ∧
    (∀ p ∈ s.answers,
      (submitAllAnswers okOracle s).2.countP (isSubmitCallFor p.1) = 1) := by
  have hrun := submitAllAnswers_run okOracle s iid hid hsub (fun _ => rfl) rfl hsubset
  refine ⟨mapSet_lookup ans q v,
    fun h => mapSet_keys_nodup ans q v h,
    fun h => mapSet_length_of_mem ans q v h, ?_, ?_⟩
  · rw [hrun]
    simp [okOracle]
  · intro p hp
    rw [hrun]
    have h1 : (s.answers.map fun p => Call.submitAnswer iid p.1 p.2).countP
        (isSubmitCallFor p.1) = 1 := by
      rw [List.countP_map]
      show List.countP (fun r => r.1 == p.1) s.answers = 1
      exact countP_key_eq_one s.answers p.1 hnodup (List.mem_map_of_mem Prod.fst hp)
    simp [okOracle, List.countP_append, List.countP_cons, h1, isSubmitCallFor]

/-- Witness for C5 at a concrete in-progress state with two stored
answers out of three questions. -/
theorem answers_last_write_wins_witness :
    (mapSet [(1, "A"), (2, "B")] 1 "C").lookup 1 = some "C" ∧
    ((([(1, "A"), (2, "B")] : List (Nat × String)).map Prod.fst).Nodup →
      ((mapSet [(1, "A"), (2, "B")] 1 "C").map Prod.fst).Nodup) ∧
    (1 ∈ ([(1, "A"), (2, "B")] : List (Nat × String)).map Prod.fst →
      (mapSet [(1, "A"), (2, "B")] 1 "C").length
        = ([(1, "A"), (2, "B")] : List (Nat × String)).length) ∧
    (submitAllAnswers okOracle
        { interviewId := some 7, questions := [1, 2, 3],
          answers := [(1, "A"), (2, "B")], timeRemaining := 3,
          testStarted := true, testCompleted := false,
          submitting := false, error := none }).2
      = ([(1, "A"), (2, "B")].map fun p => Call.submitAnswer 7 p.1 p.2)
        ++ [Call.completeInterview 7, Call.generateReport 7,
            Call.navigateResults 7] ∧
    (∀ p ∈ ([(1, "A"), (2, "B")] : List (Nat × String)),
      (submitAllAnswers okOracle
        { interviewId := some 7, questions := [1, 2, 3],
          answers := [(1, "A"), (2, "B")], timeRemaining := 3,
          testStarted := true, testCompleted := false,
          submitting := false, error := none }).2.countP
            (isSubmitCallFor p.1) = 1) :=
  answers_last_write_wins [(1, "A"), (2, "B")] 1 "C"
    { interviewId := some 7, questions := [1, 2, 3],
      answers := [(1, "A"), (2, "B")], timeRemaining := 3,
      testStarted := true, testCompleted := false,
      submitting := false, error := none } 7
    rfl rfl (by decide) (by decide)

theorem countP_submit_map_zero (pr : Call → Bool)
    (h : ∀ i q v, pr (Call.submitAnswer i q v) = false)
    (iid : Nat) (ans : List (Nat × String)) :
    (ans.map fun p => Call.submitAnswer iid p.1 p.2).countP pr = 0 := by
  rw [List.countP_eq_zero]
  intro c hc
  obtain ⟨p, _, rfl⟩ := List.mem_map.1 hc
  simp [h]

/-- Claim C1: when the deadline-driven auto-submit and the manual
submit race on the same started test, whichever runs first performs
the answer submission, the completion call and the report trigger,
and the second is a no-op (guarded by the `testCompleted` and
`submitting` flags): in both orders the combined effects contain
exactly one completion call and one report trigger. -/
theorem auto_manual_race
    (s : ClientState) (iid : Nat)
    (hid : s.interviewId = some iid)
    (hnc : s.testCompleted = false) (hns : s.submitting = false)
    (hsubset : ∀ p ∈ s.answers, p.1 ∈ s.questions) :
    ((manualSubmit okOracle true (handleAutoSubmit okOracle s).1).2 = [] ∧
     (manualSubmit okOracle true (handleAutoSubmit okOracle s).1).1
        = (handleAutoSubmit okOracle s).1 ∧
     (handleAutoSubmit okOracle s).2.countP isCompleteCall = 1 ∧
     (handleAutoSubmit okOracle s).2.countP isReportCall = 1) ∧
    ((handleAutoSubmit okOracle (manualSubmit okOracle true s).1).2 = [] ∧
     (handleAutoSubmit okOracle (manualSubmit okOracle true s).1).1
        = (manualSubmit okOracle true s).1 ∧
     (manualSubmit okOracle true s).2.countP isCompleteCall = 1 ∧
     (manualSubmit okOracle true s).2.countP isReportCall = 1) := by
  have hrun := submitAllAnswers_run okOracle { s with testCompleted := true } iid
    hid hns (fun _ => rfl) rfl hsubset
  have hauto : handleAutoSubmit okOracle s
      = submitAllAnswers okOracle { s with testCompleted := true } := by
    unfold handleAutoSubmit
    rw [hnc, hns]
    rfl
  have hman : manualSubmit okOracle true s
      = submitAllAnswers okOracle { s with testCompleted := true } := by
    unfold manualSubmit
    rw [hnc, hns]
    rfl
  have hcount1 : (submitAllAnswers okOracle { s with testCompleted := true }).2.countP
      isCompleteCall = 1 := by
    rw [hrun]
    simp [List.countP_append, List.countP_cons,
      countP_submit_map_zero isCompleteCall (fun _ _ _ => rfl), okOracle, isCompleteCall]
  have hcount2 : (submitAllAnswers okOracle { s with testCompleted := true }).2.countP
      isReportCall = 1 := by
    rw [hrun]
    simp [List.countP_append, List.countP_cons,
      countP_submit_map_zero isReportCall (fun _ _ _ => rfl), okOracle, isReportCall]
  refine ⟨⟨?_, ?_, ?_, ?_⟩, ⟨?_, ?_, ?_, ?_⟩⟩
  · rw [hauto, hrun]
    rfl
  · rw [hauto, hrun]
    rfl
  · rw [hauto]
    exact hcount1
  · rw [hauto]
    exact hcount2
  · rw [hman, hrun]
    rfl
  · rw [hman, hrun]
    rfl
  · rw [hman]
    exact hcount1
  · rw [hman]
    exact hcount2

/-- Witness for C1 at a concrete in-progress state. -/
theorem auto_manual_race_witness :
    (manualSubmit okOracle true (handleAutoSubmit okOracle sampleState).1).2 = [] ∧
    (handleAutoSubmit okOracle sampleState).2.countP isCompleteCall = 1 ∧
    (handleAutoSubmit okOracle sampleState).2.countP isReportCall = 1 :=
  ⟨(auto_manual_race sampleState 7 rfl rfl rfl (by decide)).1.1,
   (auto_manual_race sampleState 7 rfl rfl rfl (by decide)).1.2.2.1,
   (auto_manual_race sampleState 7 rfl rfl rfl (by decide)).1.2.2.2⟩

theorem runTicks_completed (o : Oracle) (k : Nat) :
    ∀ s : ClientState, s.testCompleted = true → runTicks o k s = (s, []) := by
  induction k with
  | zero => intro s _; rfl
  | succ k ih =>
    intro s hc
    have ht : timerTick o s = (s, []) := by
      unfold timerTick
      rw [hc]
      simp
    rw [runTicks]
    simp [ht, ih s hc]

theorem runTicks_add (o : Oracle) (m n : Nat) :
    ∀ s : ClientState, runTicks o (m + n) s
      = ((runTicks o n (runTicks o m s).1).1,
         (runTicks o m s).2 ++ (runTicks o n (runTicks o m s).1).2) := by
  induction m with
  | zero =>
    intro s
    simp [runTicks, Nat.zero_add]
  | succ m ih =>
    intro s
    have he : m + 1 + n = (m + n) + 1 := by omega
    rw [he, runTicks, runTicks]
    simp [ih, List.append_assoc]

theorem runTicks_expire :
    ∀ (t : Nat) (s : ClientState) (iid : Nat),
      s.interviewId = some iid → s.testStarted = true → s.testCompleted = false →
      s.submitting = false → s.timeRemaining = (t : Int) + 1 →
      (∀ p ∈ s.answers, p.1 ∈ s.questions) →
      runTicks okOracle (t + 1) s
        = ({ s with
             testCompleted := true, submitting := true,
             error := none, timeRemaining := 0 },
           (s.answers.map fun p => Call.submitAnswer iid p.1 p.2)
             ++ [Call.completeInterview iid, Call.generateReport iid,
                 Call.navigateResults iid]) := by
  intro t
  induction t with
  | zero =>
    intro s iid hid hstart hnc hns htime hsubset
    have hauto : handleAutoSubmit okOracle s
        = submitAllAnswers okOracle { s with testCompleted := true } := by
      unfold handleAutoSubmit
      rw [hnc, hns]
      rfl
    have hrun := submitAllAnswers_run okOracle { s with testCompleted := true } iid
      hid hns (fun _ => rfl) rfl hsubset
    have hcond : (s.testStarted && decide (0 < s.timeRemaining) && !s.testCompleted) = true := by
      rw [hstart, hnc, htime]
      norm_num
    have hle : s.timeRemaining ≤ 1 := by
      rw [htime]
      norm_num
    rw [runTicks]
    unfold timerTick
    rw [if_pos hcond, if_pos hle, hauto, hrun]
    have htv : tickValue s.timeRemaining = 0 := by
      unfold tickValue
      rw [if_pos hle]
    simp [runTicks, htv, okOracle]
  | succ t ih =>
    intro s iid hid hstart hnc hns htime hsubset
    have hcond : (s.testStarted && decide (0 < s.timeRemaining) && !s.testCompleted) = true := by
      rw [hstart, hnc, htime]
      push_cast
      norm_num
      omega
    have hgt : ¬(s.timeRemaining ≤ 1) := by
      rw [htime]
      push_cast
      omega
    have htv : tickValue s.timeRemaining = (t : Int) + 1 := by
      unfold tickValue
      rw [if_neg hgt, htime]
      push_cast
      ring
    have hrec := ih { s with timeRemaining := tickValue s.timeRemaining } iid
      hid hstart hnc hns htv hsubset
    rw [Nat.succ_add, runTicks]
    unfold timerTick
    rw [if_pos hcond, if_neg hgt]
    show ((runTicks okOracle (t + 1) { s with timeRemaining := tickValue s.timeRemaining }).1,
        [] ++ (runTicks okOracle (t + 1) { s with timeRemaining := tickValue s.timeRemaining }).2)
      = _
    rw [hrec]
    simp

/-- Claim C2: for a started, not-yet-completed test with positive
remaining time, running the countdown to zero triggers the automatic
completion exactly once — the collected answers are submitted, the
completion call and report trigger are issued once, the remaining
time is 0 at that moment, and any further ticks add no effects. -/
theorem deadline_auto_completes_once
    (s : ClientState) (iid : Nat) (t : Nat)
    (hid : s.interviewId = some iid) (hstart : s.testStarted = true)
    (hnc : s.testCompleted = false) (hns : s.submitting = false)
    (htime : s.timeRemaining = (t : Int) + 1)
    (hsubset : ∀ p ∈ s.answers, p.1 ∈ s.questions) :
    ∀ k : Nat,
      (runTicks okOracle (t + 1 + k) s).1.timeRemaining = 0 ∧
      (runTicks okOracle (t + 1 + k) s).1.testCompleted = true ∧
      (runTicks okOracle (t + 1 + k) s).2
        = (s.answers.map fun p => Call.submitAnswer iid p.1 p.2)
            ++ [Call.completeInterview iid, Call.generateReport iid,
                Call.navigateResults iid] ∧
      (runTicks okOracle (t + 1 + k) s).2.countP isCompleteCall = 1 := by
  intro k
  have hexp := runTicks_expire t s iid hid hstart hnc hns htime hsubset
  have hstop := runTicks_completed okOracle k
    ({ s with
       testCompleted := true, submitting := true,
       error := none, timeRemaining := 0 }) rfl
  have h2 : runTicks okOracle (t + 1 + k) s
      = ({ s with
           testCompleted := true, submitting := true,
           error := none, timeRemaining := 0 },
         (s.answers.map fun p => Call.submitAnswer iid p.1 p.2)
           ++ [Call.completeInterview iid, Call.generateReport iid,
               Call.navigateResults iid]) := by
    rw [runTicks_add okOracle (t + 1) k s, hexp]
    show ((runTicks okOracle k { s with
           testCompleted := true, submitting := true,
           error := none, timeRemaining := 0 }).1,
        ((s.answers.map fun p => Call.submitAnswer iid p.1 p.2)
           ++ [Call.completeInterview iid, Call.generateReport iid,
               Call.navigateResults iid])
          ++ (runTicks okOracle k { s with
           testCompleted := true, submitting := true,
           error := none, timeRemaining := 0 }).2) = _
    rw [hstop]
    simp
  rw [h2]
  refine ⟨rfl, rfl, rfl, ?_⟩
  simp [List.countP_append, List.countP_cons,
    countP_submit_map_zero isCompleteCall (fun _ _ _ => rfl), isCompleteCall]

/-- Witness for C2: the sample state has 3 seconds left; after 5
ticks the test is completed with the single expected effect list. -/
theorem deadline_auto_completes_once_witness :
    (runTicks okOracle 5 sampleState).1.timeRemaining = 0 ∧
    (runTicks okOracle 5 sampleState).1.testCompleted = true ∧
    (runTicks okOracle 5 sampleState).2
      = (([(1, "A")] : List (Nat × String)).map fun p => Call.submitAnswer 7 p.1 p.2)
          ++ [Call.completeInterview 7, Call.generateReport 7,
              Call.navigateResults 7] ∧
    (runTicks okOracle 5 sampleState).2.countP isCompleteCall = 1 :=
  deadline_auto_completes_once sampleState 7 2 rfl rfl rfl rfl (by decide) (by decide) 2

/-- Claim C8: after the completion call succeeds, a failure of the
report-generation call is caught and only logged — the error state
stays clear, the completed flag is untouched, and the client still
navigates to the results page; this holds on both the test-engine
path (`submitAllAnswers`) and the chat path (`handleCompleteInterview`). -/
theorem report_failure_harmless
    (o : Oracle) (s : ClientState) (iid : Nat)
    (hid : s.interviewId = some iid) (hsub : s.submitting = false)
    (hcomp : o.completeOk = true) (hsubok : ∀ q, o.submitOk q = true)
    (hrep : o.reportOk = false)
    (hsubset : ∀ p ∈ s.answers, p.1 ∈ s.questions) :
    (submitAllAnswers o s).1.error = none ∧
    (submitAllAnswers o s).1.testCompleted = s.testCompleted ∧
    Call.generateReport iid ∈ (submitAllAnswers o s).2 ∧
    Call.logReportError ∈ (submitAllAnswers o s).2 ∧
    Call.navigateResults iid ∈ (submitAllAnswers o s).2 ∧
    (handleCompleteInterview o (some iid)).1 = none ∧
    Call.logReportError ∈ (handleCompleteInterview o (some iid)).2 ∧
    Call.navigateResults iid ∈ (handleCompleteInterview o (some iid)).2 := by
  have hrun := submitAllAnswers_run o s iid hid hsub hsubok hcomp hsubset
  have hcc : handleCompleteInterview o (some iid)
      = (none, [Call.completeInterview iid, Call.generateReport iid]
          ++ (if o.reportOk then [] else [Call.logReportError])
          ++ [Call.navigateResults iid]) := by
    unfold handleCompleteInterview
    rw [hcomp]
    rfl
  refine ⟨?_, ?_, ?_, ?_, ?_, ?_, ?_, ?_⟩
  · rw [hrun]
  · rw [hrun]
  · rw [hrun]
    simp
  · rw [hrun]
    simp [hrep]
  · rw [hrun]
    simp
  · rw [hcc]
  · rw [hcc]
    simp [hrep]
  · rw [hcc]
    simp

/-- Witness for C8 with an oracle whose report generation fails. -/
theorem report_failure_harmless_witness :
    (submitAllAnswers ⟨fun _ => true, true, false, none⟩ sampleState).1.error = none ∧
    (submitAllAnswers ⟨fun _ => true, true, false, none⟩ sampleState).1.testCompleted
      = sampleState.testCompleted ∧
    Call.generateReport 7
      ∈ (submitAllAnswers ⟨fun _ => true, true, false, none⟩ sampleState).2 ∧
    Call.logReportError
      ∈ (submitAllAnswers ⟨fun _ => true, true, false, none⟩ sampleState).2 ∧
    Call.navigateResults 7
      ∈ (submitAllAnswers ⟨fun _ => true, true, false, none⟩ sampleState).2 ∧
    (handleCompleteInterview ⟨fun _ => true, true, false, none⟩ (some 7)).1 = none ∧
    Call.logReportError
      ∈ (handleCompleteInterview ⟨fun _ => true, true, false, none⟩ (some 7)).2 ∧
    Call.navigateResults 7
      ∈ (handleCompleteInterview ⟨fun _ => true, true, false, none⟩ (some 7)).2 :=
  report_failure_harmless ⟨fun _ => true, true, false, none⟩ sampleState 7
    rfl rfl rfl (fun _ => rfl) rfl (by decide)

/-- Claim C6: interview creation is attempted exactly when the
question count lies in 5..10 and the time limit in 10..120; an
out-of-range configuration is rejected synchronously with a
validation message and no backend call at all. -/
theorem config_validation
    (o : ConfigOracle) (jdId rId : Nat) (numQuestions timeLimit : Int) :
    (((handleSubmitConfig o (some jdId) (some rId) numQuestions timeLimit).2.any
        isCreateCall) = true ↔
      (5 ≤ numQuestions ∧ numQuestions ≤ 10 ∧ 10 ≤ timeLimit ∧ timeLimit ≤ 120)) ∧
    (¬(5 ≤ numQuestions ∧ numQuestions ≤ 10) →
      handleSubmitConfig o (some jdId) (some rId) numQuestions timeLimit
        = (some "Number of questions must be between 5 and 10", [])) ∧
    ((5 ≤ numQuestions ∧ numQuestions ≤ 10) →
      ¬(10 ≤ timeLimit ∧ timeLimit ≤ 120) →
      handleSubmitConfig o (some jdId) (some rId) numQuestions timeLimit
        = (some "Time limit must be between 10 and 120 minutes", [])) := by
  simp only [handleSubmitConfig]
  by_cases hq : numQuestions < 5 || numQuestions > 10
  · rw [if_pos hq]
    simp only [List.any_nil, Bool.false_eq_true, false_iff]
    refine ⟨?_, fun _ => by simp, ?_⟩
    · intro hc
      simp only [Bool.or_eq_true, decide_eq_true_eq] at hq
      omega
    · intro h1 _
      simp only [Bool.or_eq_true, decide_eq_true_eq] at hq
      omega
  · rw [if_neg hq]
    simp only [Bool.or_eq_true, decide_eq_true_eq, not_or, not_lt] at hq
    by_cases ht : timeLimit < 10 || timeLimit > 120
    · rw [if_pos ht]
      simp only [List.any_nil, Bool.false_eq_true, false_iff]
      refine ⟨?_, ?_, fun _ _ => by simp⟩
      · intro hc
        simp only [Bool.or_eq_true, decide_eq_true_eq] at ht
        omega
      · intro hc
        exact absurd ⟨hq.1, by omega⟩ hc
    · rw [if_neg ht]
      simp only [Bool.or_eq_true, decide_eq_true_eq, not_or, not_lt] at ht
      refine ⟨?_, ?_, ?_⟩
      · constructor
        · intro _
          exact ⟨hq.1, by omega, ht.1, by omega⟩
        · intro _
          cases hco : o.createdId with
          | none => simp [isCreateCall]
          | some iid =>
            by_cases hg : o.genOk = true
            · by_cases hs : o.startOk = true
              · simp [hg, hs, isCreateCall]
              · simp [hg, hs, isCreateCall]
            · simp [hg, isCreateCall]
      · intro hc
        exact absurd ⟨hq.1, by omega⟩ hc
      · intro _ hc
        exact absurd ⟨ht.1, by omega⟩ hc

/-- Witness for C6: a count of 4 questions is rejected with the
validation message and no backend call. -/
theorem config_validation_witness :
    handleSubmitConfig ⟨some 9, true, true, none⟩ (some 1) (some 2) 4 30
      = (some "Number of questions must be between 5 and 10", []) :=
  (config_validation ⟨some 9, true, true, none⟩ 1 2 4 30).2.1 (by decide)

theorem keyMatch_eq {j r : Nat} {m : MatchRecord} (h : keyMatch j r m = true) :
    m.job = j ∧ m.resume = r := by
  unfold keyMatch at h
  simpa using h

theorem keyMatch_self (j r : Nat) (f : Scores) :
    keyMatch j r ⟨j, r, f⟩ = true := by
  simp [keyMatch]

theorem matchResume_of_any (j r : Nat) (f : Scores) (st : List MatchRecord)
    (h : st.any (keyMatch j r) = true) :
    matchResume j r f st
      = st.map fun m => if keyMatch j r m then ⟨j, r, f⟩ else m := by
  unfold matchResume
  rw [if_pos h]

theorem matchResume_of_not_any (j r : Nat) (f : Scores) (st : List MatchRecord)
    (h : st.any (keyMatch j r) = false) :
    matchResume j r f st = st ++ [⟨j, r, f⟩] := by
  unfold matchResume
  rw [if_neg (by simp [h])]

theorem matchResume_any (j r : Nat) (f : Scores) (st : List MatchRecord) :
    (matchResume j r f st).any (keyMatch j r) = true := by
  by_cases h : st.any (keyMatch j r) = true
  · rw [matchResume_of_any j r f st h]
    rw [List.any_eq_true] at h ⊢
    obtain ⟨m, hm, hk⟩ := h
    refine ⟨(if keyMatch j r m = true then (⟨j, r, f⟩ : MatchRecord) else m),
      List.mem_map_of_mem _ hm, ?_⟩
    rw [if_pos hk]
    exact keyMatch_self j r f
  · rw [matchResume_of_not_any j r f st (by simpa using h)]
    rw [List.any_eq_true]
    exact ⟨⟨j, r, f⟩, by simp, keyMatch_self j r f⟩

theorem find?_map_update (j r : Nat) (f : Scores) :
    ∀ st : List MatchRecord, st.any (keyMatch j r) = true →
      (st.map fun m => if keyMatch j r m then ⟨j, r, f⟩ else m).find? (keyMatch j r)
        = some ⟨j, r, f⟩ := by
  intro st
  induction st with
  | nil => intro h; simp at h
  | cons m rest ih =>
    intro h
    rw [List.map_cons]
    by_cases hk : keyMatch j r m = true
    · rw [if_pos hk]
      rw [List.find?_cons_of_pos _ (keyMatch_self j r f)]
    · rw [if_neg hk]
      rw [List.find?_cons_of_neg _ hk]
      apply ih
      rw [List.any_cons] at h
      simpa [hk] using h

theorem matchResume_pairUnique (j r : Nat) (f : Scores) (st : List MatchRecord)
    (h : pairUnique st) : pairUnique (matchResume j r f st) := by
  by_cases hany : st.any (keyMatch j r) = true
  · rw [matchResume_of_any j r f st hany]
    unfold pairUnique at h ⊢
    rw [List.map_map]
    have hpt : ∀ m ∈ st,
        (pairKey ∘ fun m => if keyMatch j r m = true then (⟨j, r, f⟩ : MatchRecord) else m) m
          = pairKey m := by
      intro m _
      by_cases hk : keyMatch j r m = true
      · obtain ⟨hj, hr⟩ := keyMatch_eq hk
        simp [Function.comp, hk, pairKey, hj, hr]
      · simp [Function.comp, hk]
    rw [List.map_congr_left hpt]
    exact h
  · have hf : st.any (keyMatch j r) = false := by simpa using hany
    rw [matchResume_of_not_any j r f st hf]
    unfold pairUnique at h ⊢
    rw [List.map_append]
    refine List.nodup_append.2 ⟨h, by simp, ?_⟩
    intro a ha hb
    have hab : a = pairKey ⟨j, r, f⟩ := by simpa using hb
    rw [List.any_eq_false] at hf
    obtain ⟨m, hm, hme⟩ := List.mem_map.1 ha
    apply hf m hm
    have hpk : pairKey m = (j, r) := by rw [hme, hab]; rfl
    unfold pairKey at hpk
    rw [Prod.mk.injEq] at hpk
    simp [keyMatch, hpk.1, hpk.2]

theorem resumes_nodup_of_pairUnique (ms : List MatchRecord) (j : Nat)
    (h : pairUnique ms) (hall : ∀ m ∈ ms, m.job = j) :
    (matchedResumeIds ms).Nodup := by
  unfold matchedResumeIds
  unfold pairUnique at h
  have he : (ms.map fun m => m.resume) = (ms.map pairKey).map Prod.snd := by
    rw [List.map_map]
    rfl
  rw [he]
  apply List.Nodup.map_on ?_ h
  intro x hx y hy hxy
  obtain ⟨a, ha, rfl⟩ := List.mem_map.1 hx
  obtain ⟨b, hb, rfl⟩ := List.mem_map.1 hy
  have h1 : (pairKey a).1 = j := by
    unfold pairKey
    simp [hall a ha]
  have h2 : (pairKey b).1 = j := by
    unfold pairKey
    simp [hall b hb]
  exact Prod.ext (h1.trans h2.symm) hxy

theorem unmatched_not_matched (rs : List ResumeEntry) (ms : List MatchRecord) :
    ∀ x ∈ unmatchedResumes rs ms, x.id ∉ matchedResumeIds ms := by
  intro x hx
  unfold unmatchedResumes at hx
  rw [List.mem_filter] at hx
  have hb := hx.2
  rw [Bool.and_eq_true] at hb
  have hnc : (matchedResumeIds ms).contains x.id = false := by
    simpa using hb.1
  intro hmem
  have helem : (matchedResumeIds ms).contains x.id = true := List.elem_iff.mpr hmem
  rw [helem] at hnc
  exact Bool.noConfusion hnc

/-- Claim C7: re-matching the same (job, resume) pair updates the one
existing match record in place — pair uniqueness is preserved, a
second invocation does not grow the store and leaves the fields of
the latest invocation — so a job description's match list holds at
most one record per resume, on which the client's matched/unmatched
partition relies (an unmatched resume id never occurs among the
matched ids). -/
theorem matchResume_upsert
    (st : List MatchRecord) (j r : Nat) (f1 f2 : Scores)
    (h : pairUnique st) :
    pairUnique (matchResume j r f1 st) ∧
    (matchResume j r f2 (matchResume j r f1 st)).length
      = (matchResume j r f1 st).length ∧
    (matchResume j r f2 (matchResume j r f1 st)).find? (keyMatch j r)
      = some ⟨j, r, f2⟩ ∧
    (∀ ms : List MatchRecord, pairUnique ms → (∀ m ∈ ms, m.job = j) →
      (matchedResumeIds ms).Nodup) ∧
    (∀ rs : List ResumeEntry, ∀ x ∈ unmatchedResumes rs st,
      x.id ∉ matchedResumeIds st) := by
  have hany := matchResume_any j r f1 st
  refine ⟨matchResume_pairUnique j r f1 st h, ?_, ?_, ?_, ?_⟩
  · rw [matchResume_of_any j r f2 _ hany, List.length_map]
  · rw [matchResume_of_any j r f2 _ hany]
    exact find?_map_update j r f2 _ hany
  · exact fun ms hms hall => resumes_nodup_of_pairUnique ms j hms hall
  · exact fun rs => unmatched_not_matched rs st

/-- Witness for C7: one store holding a record for resume 3 under job
1; matching resume 2 twice keeps the store pair-unique, does not grow
it on the second call, and leaves the latest scores. -/
theorem matchResume_upsert_witness :
    pairUnique (matchResume 1 2 ⟨50, 60, 70, 80⟩ [⟨1, 3, ⟨1, 1, 1, 1⟩⟩]) ∧
    (matchResume 1 2 ⟨90, 91, 92, 93⟩
        (matchResume 1 2 ⟨50, 60, 70, 80⟩ [⟨1, 3, ⟨1, 1, 1, 1⟩⟩])).length
      = (matchResume 1 2 ⟨50, 60, 70, 80⟩ [⟨1, 3, ⟨1, 1, 1, 1⟩⟩]).length ∧
    (matchResume 1 2 ⟨90, 91, 92, 93⟩
        (matchResume 1 2 ⟨50, 60, 70, 80⟩ [⟨1, 3, ⟨1, 1, 1, 1⟩⟩])).find?
          (keyMatch 1 2)
      = some ⟨1, 2, ⟨90, 91, 92, 93⟩⟩ := by
  have h := matchResume_upsert [⟨1, 3, ⟨1, 1, 1, 1⟩⟩] 1 2 ⟨50, 60, 70, 80⟩
    ⟨90, 91, 92, 93⟩ (by unfold pairUnique; decide)
  exact ⟨h.1, h.2.1, h.2.2.1⟩
